import Mathlib

/-!
A shallow embedding of the `ssb-publish` crate (`src/lib.rs`): publishing
signed Secure Scuttlebutt messages as legacy JSON.

External collaborators consumed by the crate (ed25519 key parsing and
signing, SHA-256, the legacy JSON codec of `ssb-legacy-msg` /
`ssb-legacy-msg-data`, and `std`'s UTF-8 decoding) are parameters of the
embedding, collected in an `Externals` record.  The control flow of
`publish` and the functions defined in the crate itself
(`node_buffer_binary_serializer`, `get_multihash_from_message_bytes`, the
sequence-number computation) are translated from the source.  Byte strings
are `List Nat` (each element a byte), strings are `List Nat` (each element
a Unicode scalar value), and an `f64` is carried as its 64-bit pattern.
Panics reached through `.unwrap()` are an explicit `Outcome.panicked`
result.
-/

namespace SsbPublish

/-- `Target` from `ssb_multiformats::multihash`: the kind of object a
multihash identifies. -/
inductive Target where
  | message
  | blob
deriving DecidableEq

/-- `Multihash` from `ssb_multiformats::multihash`: a digest tagged with a
target discriminant. -/
structure Multihash where
  digest : List Nat
  target : Target
deriving DecidableEq

/-- `Multihash::from_sha256`. -/
def Multihash.from_sha256 (hash : List Nat) (t : Target) : Multihash :=
  ⟨hash, t⟩

/-- `Multikey` from `ssb_multiformats::multikey`: a tagged public key. -/
structure Multikey where
  ed25519_key : List Nat
deriving DecidableEq

/-- `Multikey::from_ed25519`. -/
def Multikey.from_ed25519 (bytes : List Nat) : Multikey :=
  ⟨bytes⟩

/-- `Multisig` from `ssb_multiformats::multikey`: a tagged signature. -/
structure Multisig where
  ed25519_sig : List Nat
deriving DecidableEq

/-- `Multisig::from_ed25519`. -/
def Multisig.from_ed25519 (bytes : List Nat) : Multisig :=
  ⟨bytes⟩

/-- `LegacyF64` from `ssb_legacy_msg_data`: an `f64` accepted by the legacy
codec, carried abstractly as its 64-bit pattern. -/
structure LegacyF64 where
  bits : Nat
deriving DecidableEq

/-- `SsbPreviousMessageValue` from `src/lib.rs`: the minimal projection of
the previous message that `publish` decodes. -/
structure SsbPreviousMessageValue where
  previous : Option Multihash
  author : Multikey
  sequence : Nat
  timestamp : LegacyF64
deriving DecidableEq

/-- `ssb_legacy_msg::Message`: the message envelope assembled by
`publish`. -/
structure Message (T : Type) where
  content : T
  author : Multikey
  previous : Option Multihash
  sequence : Nat
  swapped : Bool
  timestamp : LegacyF64
  signature : Option Multisig

/-- The `Error` enum of `src/lib.rs`.  `InvalidPreviousMessage` carries the
offending bytes (the `message` field of the Rust variant). -/
inductive Error where
  | InvalidPreviousMessage (message : List Nat)
  | InvalidPublicKey
  | InvalidSecretKey
  | PreviousMessageAuthorIsIncorrect
  | LegacyJsonEncodeFailed
deriving DecidableEq

/-- The observable result of one `publish` call: the `Result<(Vec<u8>,
Multihash)>` of the source, plus `panicked` for a panic reached through
`.unwrap()`. -/
inductive Outcome where
  | ok (bytes : List Nat) (key : Multihash)
  | err (e : Error)
  | panicked
deriving DecidableEq

/-- The external collaborators consumed (not reimplemented) by `publish`,
as parameters of the embedding:
`pubkey_valid` / `seckey_valid` are success of
`ed25519_dalek::{PublicKey,SecretKey}::from_bytes`;
`from_slice` is `ssb_legacy_msg_data::json::from_slice`
(`none` models a `DecodeJsonError`);
`encodeContent` is serde serialization of the generic content under the
legacy codec (`none` models an `EncodeJsonError`);
`encodeEnvelope` is the codec's deterministic assembly of the envelope's
fields around the encoded content;
`sign` is `Keypair::sign::<Sha512>` (secret bytes, public bytes, message);
`sha256` is `Sha256::digest`;
`utf8_decode` is `std::str::from_utf8` (`none` on invalid UTF-8);
`from_f64` is `LegacyF64::from_f64` on an `f64` bit pattern. -/
structure Externals (T : Type) where
  pubkey_valid : List Nat → Bool
  seckey_valid : List Nat → Bool
  from_slice : List Nat → Option SsbPreviousMessageValue
  encodeContent : T → Option (List Nat)
  encodeEnvelope : Option Multihash → Multikey → Nat → LegacyF64 → Bool →
    Option Multisig → List Nat → List Nat
  sign : List Nat → List Nat → List Nat → List Nat
  sha256 : List Nat → List Nat
  utf8_decode : List Nat → Option (List Nat)
  from_f64 : Nat → Option LegacyF64

/-- Modelled from the spec: `ssb_legacy_msg::json::to_legacy_vec`, the
canonical encoder, is an external collaborator and not part of this
repository.  Per the spec's Canonical Encoder Adapter contract it is
invoked identically for the signable bytes and the final bytes except for
the signature field's presence, and a failure of the underlying codec
comes from the caller-supplied content (the envelope's own fields always
encode).  We therefore model it as: encode the content, which may fail,
then deterministically assemble the envelope's fields around it. -/
def to_legacy_vec {T : Type} (ext : Externals T) (m : Message T) : Option (List Nat) :=
  (ext.encodeContent m.content).map fun cbytes =>
    ext.encodeEnvelope m.previous m.author m.sequence m.timestamp m.swapped
      m.signature cbytes

/-- The UTF-16 encoding of one Unicode scalar value, as produced for each
`char` by Rust's `encode_utf16`: one code unit below `0x10000`, a
surrogate pair at or above it. -/
def charToUtf16 (c : Nat) : List Nat :=
  if c < 0x10000 then [c]
  else [0xD800 + (c - 0x10000) / 0x400, 0xDC00 + (c - 0x10000) % 0x400]

/-- `str::encode_utf16`: the UTF-16 code units of a string given as its
sequence of Unicode scalar values. -/
def encode_utf16 (text : List Nat) : List Nat :=
  (text.map charToUtf16).flatten

/-- `node_buffer_binary_serializer` from `src/lib.rs`:
`text.encode_utf16().map(|word| (word & 0xFF) as u8).collect()`. -/
def node_buffer_binary_serializer (text : List Nat) : List Nat :=
  (encode_utf16 text).map fun word => Nat.land word 0xFF

/-- `get_multihash_from_message_bytes` from `src/lib.rs`.  The result is
`none` when `std::str::from_utf8(bytes).unwrap()` would panic on invalid
UTF-8. -/
def get_multihash_from_message_bytes {T : Type} (ext : Externals T)
    (bytes : List Nat) : Option Multihash :=
  (ext.utf8_decode bytes).map fun text =>
    Multihash.from_sha256 (ext.sha256 (node_buffer_binary_serializer text))
      Target.message

/-- The successor sequence number of `publish`: `msg.sequence + 1` on
`u64`, unchecked, which wraps modulo `2^64` under release semantics. -/
def next_sequence (s : Nat) : Nat :=
  (s + 1) % 2 ^ 64

/-- The tail of `publish` past envelope assembly (`src/lib.rs` lines
148-171): build `new_message` (the `LegacyF64::from_f64(timestamp)
.unwrap()` panics when the timestamp is not representable), encode the
signable bytes, sign, re-encode with the signature (`.unwrap()` on this
second encoding), and hash the published bytes. -/
def publishTail {T : Type} (ext : Externals T) (content : T) (author : Multikey)
    (new_seq : Nat) (previous_key : Option Multihash)
    (public_key_bytes secret_key_bytes : List Nat) (timestamp : Nat) : Outcome :=
  match ext.from_f64 timestamp with
  | none => .panicked
  | some ts =>
    match to_legacy_vec ext
        { content := content, author := author, previous := previous_key,
          sequence := new_seq, swapped := false, timestamp := ts,
          signature := none } with
    | none => .err .LegacyJsonEncodeFailed
    | some signable_bytes =>
      match to_legacy_vec ext
          { content := content, author := author, previous := previous_key,
            sequence := new_seq, swapped := false, timestamp := ts,
            signature := some (Multisig.from_ed25519
              (ext.sign secret_key_bytes public_key_bytes signable_bytes)) } with
      | none => .panicked
      | some published_bytes =>
        match get_multihash_from_message_bytes ext published_bytes with
        | none => .panicked
        | some key => .ok published_bytes key

/-- The middle of `publish` (`src/lib.rs` lines 138-146): the continuity
check `ensure!(previous_author == author, PreviousMessageAuthorIsIncorrect)`
when a previous author exists, then the tail. -/
def publishWith {T : Type} (ext : Externals T) (content : T) (author : Multikey)
    (new_seq : Nat) (previous_key : Option Multihash)
    (previous_author : Option Multikey)
    (public_key_bytes secret_key_bytes : List Nat) (timestamp : Nat) : Outcome :=
  match previous_author with
  | some previous_author =>
    if previous_author = author then
      publishTail ext content author new_seq previous_key
        public_key_bytes secret_key_bytes timestamp
    else .err .PreviousMessageAuthorIsIncorrect
  | none =>
    publishTail ext content author new_seq previous_key
      public_key_bytes secret_key_bytes timestamp

/-- `publish` from `src/lib.rs`: validate the keys, resolve the previous
message (decoding it and hashing its bytes), compute the new sequence
number and previous key, and continue with `publishWith` /
`publishTail`. -/
def publish {T : Type} (ext : Externals T) (content : T)
    (previous_msg_value_bytes : Option (List Nat))
    (public_key_bytes secret_key_bytes : List Nat) (timestamp : Nat) : Outcome :=
  if ext.pubkey_valid public_key_bytes = false then .err .InvalidPublicKey
  else if ext.seckey_valid secret_key_bytes = false then .err .InvalidSecretKey
  else
    match previous_msg_value_bytes with
    | some message =>
      match ext.from_slice message with
      | none => .err (.InvalidPreviousMessage message)
      | some decoded_previous =>
        match get_multihash_from_message_bytes ext message with
        | none => .panicked
        | some previous_key =>
          publishWith ext content (Multikey.from_ed25519 public_key_bytes)
            (next_sequence decoded_previous.sequence)
            (some previous_key) (some decoded_previous.author)
            public_key_bytes secret_key_bytes timestamp
    | none =>
      publishWith ext content (Multikey.from_ed25519 public_key_bytes) 1 none none
        public_key_bytes secret_key_bytes timestamp

/-- A decoded previous message used by the closed witnesses. -/
def prevTest : SsbPreviousMessageValue :=
  { previous := none
    author := Multikey.from_ed25519 (List.replicate 32 0)
    sequence := 5
    timestamp := ⟨0⟩ }

/-- A concrete instantiation of the external collaborators, used only to
exercise the theorems below on closed inputs. -/
def extTest : Externals Unit :=
  { pubkey_valid := fun _ => true
    seckey_valid := fun _ => true
    from_slice := fun bytes => if bytes = [1] then some prevTest else none
    encodeContent := fun _ => some [99]
    encodeEnvelope := fun prev _ seq _ _ sig cbytes =>
      [seq % 256] ++ cbytes ++ (if sig.isSome then [83] else []) ++
        (if prev.isSome then [80] else [])
    sign := fun _ _ _ => [7]
    sha256 := fun bs => [bs.length % 256]
    utf8_decode := fun bs => some bs
    from_f64 := fun t => if t = 0 then some ⟨0⟩ else none }

/-- Helper: `Nat.land` with `0xFF` is reduction modulo `256`. -/
theorem land_ff_eq_mod (word : Nat) : Nat.land word 0xFF = word % 256 := by
  have h := Nat.and_pow_two_sub_one_eq_mod word 8
  simpa using h

/-- Helper: a scalar value below `0x10000` is a single UTF-16 code unit. -/
theorem charToUtf16_small {c : Nat} (h : c < 0x10000) : charToUtf16 c = [c] := by
  simp [charToUtf16, h]

/-- C10: the new sequence number is `previous.sequence + 1` in unchecked
`u64` arithmetic: below `2^64 - 1` it is exactly `s + 1`, and at
`2^64 - 1` the addition wraps to `0` modulo `2^64` instead of reporting an
error. -/
theorem next_sequence_unchecked (s : Nat) (hs : s < 2 ^ 64) :
    (s < 2 ^ 64 - 1 → next_sequence s = s + 1) ∧
    (s = 2 ^ 64 - 1 → next_sequence s = 0) := by
  constructor
  · intro h
    unfold next_sequence
    omega
  · intro h
    subst h
    unfold next_sequence
    omega

/-- Closed witness for `next_sequence_unchecked`. -/
theorem next_sequence_unchecked_witness :
    (5 < 2 ^ 64 - 1 → next_sequence 5 = 5 + 1) ∧
    (5 = 2 ^ 64 - 1 → next_sequence 5 = 0) :=
  next_sequence_unchecked 5 (by norm_num)

/-- C5: the legacy byte transcoder takes the low 8 bits of each UTF-16
code unit of the string, in order; in particular it is the identity on
ASCII strings. -/
theorem node_buffer_binary_serializer_spec (text : List Nat) :
    node_buffer_binary_serializer text = (encode_utf16 text).map (fun word => word % 256) ∧
    ((∀ c ∈ text, c < 128) → node_buffer_binary_serializer text = text) := by
  constructor
  · unfold node_buffer_binary_serializer
    exact List.map_congr_left fun word _ => land_ff_eq_mod word
  · intro hascii
    unfold node_buffer_binary_serializer encode_utf16
    induction text with
    | nil => simp
    | cons c cs ih =>
      have hc : c < 128 := hascii c (List.mem_cons_self c cs)
      have hcs : ∀ x ∈ cs, x < 128 := fun x hx => hascii x (List.mem_cons_of_mem c hx)
      have hone : charToUtf16 c = [c] := charToUtf16_small (by omega)
      have hmod : Nat.land c 0xFF = c := by
        rw [land_ff_eq_mod]
        omega
      simp only [List.map_cons, hone, List.flatten_cons, List.map_append, List.map]
      rw [hmod]
      simpa using ih hcs

/-- Closed witness for `node_buffer_binary_serializer_spec`: the
transcoder is the identity on the ASCII string "Hi". -/
theorem node_buffer_binary_serializer_spec_witness :
    node_buffer_binary_serializer [72, 105] = [72, 105] :=
  (node_buffer_binary_serializer_spec [72, 105]).2 (by decide)

/-- Helper: on valid UTF-8 bytes the multihash computation returns a value
(no panic), namely the tagged digest of the transcoded decoded string. -/
theorem get_multihash_total {T : Type} (ext : Externals T) (bs : List Nat)
    (h : (ext.utf8_decode bs).isSome = true) :
    get_multihash_from_message_bytes ext bs =
      some (Multihash.from_sha256
        (ext.sha256 (node_buffer_binary_serializer ((ext.utf8_decode bs).getD [])))
        Target.message) := by
  obtain ⟨text, htext⟩ := Option.isSome_iff_exists.mp h
  simp [get_multihash_from_message_bytes, htext]

/-- Helper: when `publishTail` returns normally, the returned key is the
multihash of the returned bytes. -/
theorem publishTail_hash {T : Type} {ext : Externals T} {content : T}
    {author : Multikey} {new_seq : Nat} {previous_key : Option Multihash}
    {pk sk : List Nat} {t : Nat} {bytes : List Nat} {key : Multihash}
    (h : publishTail ext content author new_seq previous_key pk sk t = .ok bytes key) :
    get_multihash_from_message_bytes ext bytes = some key := by
  unfold publishTail at h
  split at h
  · simp at h
  · split at h
    · simp at h
    · split at h
      · simp at h
      · split at h
        · simp at h
        · next published_bytes key' heq =>
          obtain ⟨hb, hk⟩ := Outcome.ok.inj h
          rw [← hb, ← hk]
          exact heq

/-- Helper: when `publishWith` returns normally, the returned key is the
multihash of the returned bytes. -/
theorem publishWith_hash {T : Type} {ext : Externals T} {content : T}
    {author : Multikey} {new_seq : Nat} {previous_key : Option Multihash}
    {previous_author : Option Multikey} {pk sk : List Nat} {t : Nat}
    {bytes : List Nat} {key : Multihash}
    (h : publishWith ext content author new_seq previous_key previous_author pk sk t =
      .ok bytes key) :
    get_multihash_from_message_bytes ext bytes = some key := by
  unfold publishWith at h
  split at h
  · split at h
    · exact publishTail_hash h
    · simp at h
  · exact publishTail_hash h

/-- C4: for every successful `publish` call, the returned `Multihash`
equals the transcode-then-digest multihash recomputed from the returned
final bytes by `get_multihash_from_message_bytes`. -/
theorem publish_key_integrity {T : Type} (ext : Externals T) (content : T)
    (previous_msg_value_bytes : Option (List Nat)) (pk sk : List Nat) (t : Nat)
    (bytes : List Nat) (key : Multihash)
    (h : publish ext content previous_msg_value_bytes pk sk t = .ok bytes key) :
    get_multihash_from_message_bytes ext bytes = some key := by
  unfold publish at h
  split at h
  · simp at h
  · split at h
    · simp at h
    · split at h
      · split at h
        · simp at h
        · split at h
          · simp at h
          · exact publishWith_hash h
      · exact publishWith_hash h

/-- Closed witness for `publish_key_integrity`: a concrete first entry. -/
theorem publish_key_integrity_witness :
    get_multihash_from_message_bytes extTest [1, 99, 83] =
      some ⟨[3], Target.message⟩ :=
  publish_key_integrity extTest () none (List.replicate 32 0) [0] 0 [1, 99, 83]
    ⟨[3], Target.message⟩ (by decide)

/-- C6: `publish` is deterministic — two calls with identical content,
previous bytes, keys and timestamp return the same outcome, and when both
succeed they return byte-identical final bytes and equal identifiers. -/
theorem publish_deterministic {T : Type} (ext : Externals T) (content : T)
    (previous_msg_value_bytes : Option (List Nat)) (pk sk : List Nat) (t : Nat)
    (r₁ r₂ : Outcome)
    (h₁ : publish ext content previous_msg_value_bytes pk sk t = r₁)
    (h₂ : publish ext content previous_msg_value_bytes pk sk t = r₂) :
    r₁ = r₂ ∧ ∀ b₁ k₁ b₂ k₂, r₁ = .ok b₁ k₁ → r₂ = .ok b₂ k₂ →
      b₁ = b₂ ∧ k₁ = k₂ := by
  subst h₁
  subst h₂
  refine ⟨rfl, ?_⟩
  intro b₁ k₁ b₂ k₂ e₁ e₂
  rw [e₁] at e₂
  exact ⟨(Outcome.ok.inj e₂).1, (Outcome.ok.inj e₂).2⟩

/-- Closed witness for `publish_deterministic`. -/
theorem publish_deterministic_witness :
    Outcome.ok [1, 99, 83] ⟨[3], Target.message⟩ =
      Outcome.ok [1, 99, 83] ⟨[3], Target.message⟩ ∧
    ∀ b₁ k₁ b₂ k₂,
      Outcome.ok [1, 99, 83] ⟨[3], Target.message⟩ = .ok b₁ k₁ →
      Outcome.ok [1, 99, 83] ⟨[3], Target.message⟩ = .ok b₂ k₂ →
      b₁ = b₂ ∧ k₁ = k₂ :=
  publish_deterministic extTest () none (List.replicate 32 0) [0] 0 _ _
    (by decide) (by decide)

/-- C7 (documenting the code bug): when the timestamp is not representable
in the legacy codec (`LegacyF64::from_f64` returns nothing), `publish`
panics at the `.unwrap()` instead of returning
`Error.LegacyJsonEncodeFailed`. -/
theorem publish_unrepresentable_timestamp_panics {T : Type} (ext : Externals T)
    (content : T) (pk sk : List Nat) (t : Nat)
    (hpk : ext.pubkey_valid pk = true) (hsk : ext.seckey_valid sk = true)
    (ht : ext.from_f64 t = none) :
    publish ext content none pk sk t = .panicked := by
  simp [publish, publishWith, publishTail, hpk, hsk, ht]

/-- Closed witness for `publish_unrepresentable_timestamp_panics`. -/
theorem publish_unrepresentable_timestamp_panics_witness :
    publish extTest () none (List.replicate 32 0) [0] 1 = .panicked :=
  publish_unrepresentable_timestamp_panics extTest () (List.replicate 32 0) [0] 1
    rfl rfl rfl

/-- C8: previous-entry bytes that do not decode yield
`Error.InvalidPreviousMessage` carrying the offending bytes, with no
output and no panic. -/
theorem publish_invalid_previous {T : Type} (ext : Externals T) (content : T)
    (prevBytes pk sk : List Nat) (t : Nat)
    (hpk : ext.pubkey_valid pk = true) (hsk : ext.seckey_valid sk = true)
    (hdec : ext.from_slice prevBytes = none) :
    publish ext content (some prevBytes) pk sk t =
      .err (.InvalidPreviousMessage prevBytes) := by
  simp [publish, hpk, hsk, hdec]

/-- Closed witness for `publish_invalid_previous`. -/
theorem publish_invalid_previous_witness :
    publish extTest () (some [2]) (List.replicate 32 0) [0] 0 =
      .err (.InvalidPreviousMessage [2]) :=
  publish_invalid_previous extTest () [2] (List.replicate 32 0) [0] 0 rfl rfl rfl

/-- C1: publishing with no previous entry produces, for any serializable
content, valid 32-byte public key, valid secret key and representable
timestamp, final bytes that encode an envelope with `sequence = 1`,
`previous = none` and `author = Multikey.from_ed25519 pk`. -/
theorem publish_first_entry {T : Type} (ext : Externals T) (content : T)
    (pk sk : List Nat) (t : Nat) (lf : LegacyF64) (cbytes : List Nat)
    (_hlen : pk.length = 32)
    (hpk : ext.pubkey_valid pk = true) (hsk : ext.seckey_valid sk = true)
    (ht : ext.from_f64 t = some lf) (hc : ext.encodeContent content = some cbytes)
    (hutf : ∀ bs, (ext.utf8_decode bs).isSome = true) :
    ∃ sig bytes key,
      publish ext content none pk sk t = .ok bytes key ∧
      to_legacy_vec ext
        { content := content, author := Multikey.from_ed25519 pk, previous := none,
          sequence := 1, swapped := false, timestamp := lf,
          signature := some sig } = some bytes := by
  simp only [publish, publishWith, publishTail, to_legacy_vec, hpk, hsk, ht, hc,
    hutf, get_multihash_total, Option.map_some', Bool.true_eq_false, if_false,
    reduceIte]
  exact ⟨_, _, _, rfl, rfl⟩

/-- Closed witness for `publish_first_entry`. -/
theorem publish_first_entry_witness :
    ∃ sig bytes key,
      publish extTest () none (List.replicate 32 0) [0] 0 = .ok bytes key ∧
      to_legacy_vec extTest
        { content := (), author := Multikey.from_ed25519 (List.replicate 32 0),
          previous := none, sequence := 1, swapped := false, timestamp := ⟨0⟩,
          signature := some sig } = some bytes :=
  publish_first_entry extTest () (List.replicate 32 0) [0] 0 ⟨0⟩ [99]
    rfl rfl rfl rfl rfl (fun _ => rfl)

/-- C2: publishing on top of a well-formed previous entry by the same
author produces final bytes that encode an envelope whose sequence is the
previous sequence plus one and whose previous field is the
transcode-then-digest multihash of the supplied previous bytes. -/
theorem publish_chained_entry {T : Type} (ext : Externals T) (content : T)
    (prevBytes pk sk : List Nat) (t : Nat) (prev : SsbPreviousMessageValue)
    (lf : LegacyF64) (cbytes : List Nat)
    (hpk : ext.pubkey_valid pk = true) (hsk : ext.seckey_valid sk = true)
    (hprev : ext.from_slice prevBytes = some prev)
    (hauth : prev.author = Multikey.from_ed25519 pk)
    (hseq : prev.sequence + 1 < 2 ^ 64)
    (ht : ext.from_f64 t = some lf) (hc : ext.encodeContent content = some cbytes)
    (hutf : ∀ bs, (ext.utf8_decode bs).isSome = true) :
    ∃ prev_key sig bytes key,
      get_multihash_from_message_bytes ext prevBytes = some prev_key ∧
      publish ext content (some prevBytes) pk sk t = .ok bytes key ∧
      to_legacy_vec ext
        { content := content, author := Multikey.from_ed25519 pk,
          previous := some prev_key, sequence := prev.sequence + 1,
          swapped := false, timestamp := lf,
          signature := some sig } = some bytes := by
  have hnext : next_sequence prev.sequence = prev.sequence + 1 := by
    unfold next_sequence
    omega
  simp only [publish, publishWith, publishTail, to_legacy_vec, hpk, hsk, hprev,
    hauth, hnext, ht, hc, hutf, get_multihash_total, Option.map_some',
    Bool.true_eq_false, if_false, reduceIte, if_true]
  exact ⟨_, _, _, _, rfl, rfl, rfl⟩

/-- Closed witness for `publish_chained_entry`. -/
theorem publish_chained_entry_witness :
    ∃ prev_key sig bytes key,
      get_multihash_from_message_bytes extTest [1] = some prev_key ∧
      publish extTest () (some [1]) (List.replicate 32 0) [0] 0 = .ok bytes key ∧
      to_legacy_vec extTest
        { content := (), author := Multikey.from_ed25519 (List.replicate 32 0),
          previous := some prev_key, sequence := prevTest.sequence + 1,
          swapped := false, timestamp := ⟨0⟩,
          signature := some sig } = some bytes :=
  publish_chained_entry extTest () [1] (List.replicate 32 0) [0] 0 prevTest ⟨0⟩ [99]
    rfl rfl rfl rfl (by decide) rfl rfl (fun _ => rfl)

/-- C3: when the previous entry decodes but its author differs from the
`Multikey` derived from the supplied public key bytes, `publish` fails
with `Error.PreviousMessageAuthorIsIncorrect` and produces no output. -/
theorem publish_author_mismatch {T : Type} (ext : Externals T) (content : T)
    (prevBytes pk sk : List Nat) (t : Nat) (prev : SsbPreviousMessageValue)
    (hpk : ext.pubkey_valid pk = true) (hsk : ext.seckey_valid sk = true)
    (hprev : ext.from_slice prevBytes = some prev)
    (hmh : (ext.utf8_decode prevBytes).isSome = true)
    (hne : prev.author ≠ Multikey.from_ed25519 pk) :
    publish ext content (some prevBytes) pk sk t =
      .err .PreviousMessageAuthorIsIncorrect := by
  simp only [publish, publishWith, hpk, hsk, hprev, hmh, get_multihash_total,
    Option.map_some', Bool.true_eq_false, if_false, reduceIte]
  simp [hne]

/-- Closed witness for `publish_author_mismatch`. -/
theorem publish_author_mismatch_witness :
    publish extTest () (some [1]) (List.replicate 32 1) [0] 0 =
      .err .PreviousMessageAuthorIsIncorrect :=
  publish_author_mismatch extTest () [1] (List.replicate 32 1) [0] 0 prevTest
    rfl rfl rfl rfl (by decide)

/-- C9: whenever the canonical encoder succeeds on an envelope with the
signature field absent, it also succeeds on the same envelope with the
signature populated, so the second encoding in `publish` (the one under
`.unwrap()`) cannot fail. -/
theorem to_legacy_vec_signed_total {T : Type} (ext : Externals T) (m : Message T)
    (sig : Multisig) (bs : List Nat)
    (h : to_legacy_vec ext { m with signature := none } = some bs) :
    ∃ bs₂, to_legacy_vec ext { m with signature := some sig } = some bs₂ := by
  simp only [to_legacy_vec] at h ⊢
  cases hc : ext.encodeContent m.content with
  | none => simp [hc] at h
  | some cbytes =>
    exact ⟨ext.encodeEnvelope m.previous m.author m.sequence m.timestamp m.swapped
      (some sig) cbytes, by simp [hc]⟩

/-- Closed witness for `to_legacy_vec_signed_total`. -/
theorem to_legacy_vec_signed_total_witness :
    ∃ bs₂, to_legacy_vec extTest
      { content := (), author := Multikey.from_ed25519 (List.replicate 32 0),
        previous := none, sequence := 1, swapped := false, timestamp := ⟨0⟩,
        signature := some ⟨[7]⟩ } = some bs₂ :=
  to_legacy_vec_signed_total extTest
    { content := (), author := Multikey.from_ed25519 (List.replicate 32 0),
      previous := none, sequence := 1, swapped := false, timestamp := ⟨0⟩,
      signature := none } ⟨[7]⟩ [1, 99] rfl

end SsbPublish
